import Mathlib

/-!
Shallow embedding of `src/report_automation.py`, a pandas-based weekly
sales-report pipeline (load → clean → aggregate → visualize → export →
notify), together with theorems settling the specification claims.

Modelling conventions:
* A pandas DataFrame row is a `RawRecord` (before date coercion) or a
  `Record` (after `pd.to_datetime(..., errors='coerce')`); a missing cell
  (NaN/NaT) is `none`.
* Numeric sales amounts are `ℚ`; a pandas NaN result (e.g. the mean of an
  empty column) is `none : Option ℚ`.
* Calendar dates are day numbers (proleptic Gregorian, Hinnant's civil
  algorithm, counted from 0000-03-01), as produced by the ISO `YYYY-MM-DD`
  parse that the script's input uses.
* In-place mutation of a frame (only `df['order_date'] = ...` in
  `clean_data` mutates) is explicit state passing: each pipeline function
  returns the caller's frame as observed after the call alongside its
  result.
* Filesystem effects of `os.makedirs(..., exist_ok=True)` are a list of
  existing directories threaded through `generate_visuals`.
-/

namespace Report

/-- One row of the raw CSV as loaded by `load_data` (`pd.read_csv`):
`order_id`, `order_date` (still text), `product`, `sales`; any cell may be
missing (NaN), modelled as `none`. -/
structure RawRecord where
  order_id : Option String
  order_date : Option String
  product : Option String
  sales : Option ℚ
deriving DecidableEq, Repr

/-- One row after the Cleaner's date coercion: `order_date` is now a parsed
day number, `none` standing for `NaT`. -/
structure Record where
  order_id : Option String
  order_date : Option Nat
  product : Option String
  sales : Option ℚ
deriving DecidableEq, Repr

/-- Day count of a civil date from the epoch 0000-03-01 (valid for years
≥ 1), following the standard civil-from-date algorithm; used as the value
of a parsed `order_date`. -/
def daysFromCivil (y m d : Nat) : Nat :=
  let yAdj := if m ≤ 2 then y - 1 else y
  let era := yAdj / 400
  let yoe := yAdj % 400
  let mp := (m + 9) % 12
  let doy := (153 * mp + 2) / 5 + (d - 1)
  let doe := yoe * 365 + yoe / 4 - yoe / 100 + doy
  era * 146097 + doe

/-- Days in a month of the proleptic Gregorian calendar. -/
def daysInMonth (y m : Nat) : Nat :=
  if m = 2 then
    if y % 4 = 0 ∧ (y % 100 ≠ 0 ∨ y % 400 = 0) then 29 else 28
  else if m = 4 ∨ m = 6 ∨ m = 9 ∨ m = 11 then 30
  else 31

/-- Split a character list at each `'-'` (the field separator of an ISO
date). -/
def splitDash : List Char → List (List Char)
  | [] => [[]]
  | c :: rest =>
    match splitDash rest with
    | [] => [[]]
    | g :: gs => if c = '-' then [] :: g :: gs else (c :: g) :: gs

/-- Read a non-empty all-digit character list as a decimal number. -/
def digitsToNat : List Char → Nat → Option Nat
  | [], acc => some acc
  | c :: rest, acc =>
    if c.isDigit then digitsToNat rest (acc * 10 + (c.toNat - 48)) else none

/-- Read a decimal numeral (at least one digit, digits only). -/
def parseNat (l : List Char) : Option Nat :=
  match l with
  | [] => none
  | _ :: _ => digitsToNat l 0

/-- `pd.to_datetime(value, errors='coerce')` on one cell: parse an ISO
`YYYY-MM-DD` string to a day number; anything unparseable (or out of
range) coerces to `NaT`, i.e. `none`. -/
def parseDate (s : String) : Option Nat :=
  match splitDash s.data with
  | [ys, ms, ds] =>
    match parseNat ys, parseNat ms, parseNat ds with
    | some y, some m, some d =>
      if 1 ≤ y ∧ 1 ≤ m ∧ m ≤ 12 ∧ 1 ≤ d ∧ d ≤ daysInMonth y m then
        some (daysFromCivil y m d)
      else none
    | _, _, _ => none
  | _ => none

/-- Effect of `df['order_date'] = pd.to_datetime(df['order_date'],
errors='coerce')` on one row: the date cell is parsed (missing stays
missing, unparseable becomes `none` = NaT); every other cell is
untouched. -/
def coerceRecord (r : RawRecord) : Record :=
  { order_id := r.order_id
    order_date := r.order_date.bind parseDate
    product := r.product
    sales := r.sales }

/-- Row-survival test of `df.dropna(subset=['order_id', 'order_date',
'sales'])`: the three listed cells must be non-missing (`product` is not
consulted). -/
def keepRecord (r : Record) : Bool :=
  r.order_id.isSome && r.order_date.isSome && r.sales.isSome

/-- `clean_data(df)`. The column assignment `df['order_date'] = ...`
mutates the caller's frame in place, so the first component is the frame
the caller observes after the call (all rows, dates coerced); `dropna`
returns a new frame, the second component (rows with a missing
`order_id`, `order_date` or `sales` removed, order preserved). -/
def clean_data (df : List RawRecord) : List Record × List Record :=
  let coerced := df.map coerceRecord
  (coerced, coerced.filter keepRecord)

/-- `df['sales'].sum()`: pandas skips NaN cells and returns 0 on an empty
column. -/
def totalSales (df : List Record) : ℚ :=
  (df.filterMap (fun r => r.sales)).sum

/-- Number of non-missing `sales` cells (the denominator of
`df['sales'].mean()`). -/
def salesCount (df : List Record) : Nat :=
  (df.filterMap (fun r => r.sales)).length

/-- `df['sales'].mean()`: arithmetic mean over the non-missing cells; the
mean of an empty column is NaN, modelled as `none`. -/
def avgOrderValue (df : List Record) : Option ℚ :=
  if salesCount df = 0 then none
  else some (totalSales df / (salesCount df : ℚ))

/-- `df['order_id'].nunique()`: number of distinct non-missing order ids
(pandas `nunique` excludes NaN). -/
def numOrders (df : List Record) : Nat :=
  ((df.filterMap (fun r => r.order_id)).dedup).length

/-- Strict lexicographic comparison of strings by code point, the order
Python uses to compare `str` values (and hence the order pandas sorts
product names in). -/
def strLtB : List Char → List Char → Bool
  | [], [] => false
  | [], _ :: _ => true
  | _ :: _, [] => false
  | a :: as, b :: bs =>
    if a < b then true else if b < a then false else strLtB as bs

/-- Ascending lexicographic order on product names, the key order that
`df.groupby('product')` (default `sort=True`) gives its groups. -/
def strLe (a b : String) : Prop := strLtB b.data a.data = false

instance : DecidableRel strLe := fun a b =>
  inferInstanceAs (Decidable (strLtB b.data a.data = false))

/-- Strict version of `strLe`. -/
def strLt (a b : String) : Prop := strLtB a.data b.data = true

instance : DecidableRel strLt := fun a b =>
  inferInstanceAs (Decidable (strLtB a.data b.data = true))

/-- The group keys of `df.groupby('product')`: distinct non-missing
product names (default `dropna=True` discards NaN keys), sorted
lexicographically (default `sort=True`). -/
def productKeys (df : List Record) : List String :=
  List.insertionSort strLe ((df.filterMap (fun r => r.product)).dedup)

/-- Summed sales of one product group (`groupby('product')['sales'].sum()`
for one key): NaN sales cells are skipped, an empty selection sums to 0. -/
def groupSales (df : List Record) (p : String) : ℚ :=
  ((df.filter (fun r => r.product = some p)).filterMap (fun r => r.sales)).sum

/-- `df.groupby('product')['sales'].sum()`: one `(key, summed sales)` pair
per group, keys in sorted order. -/
def groupbySumSales (df : List Record) : List (String × ℚ) :=
  (productKeys df).map (fun p => (p, groupSales df p))

/-- The distinct non-missing product names of a table in order of first
appearance (the "first-encountered insertion order" the specification
speaks about; not a notion the code computes). -/
def firstSeenProducts (df : List Record) : List String :=
  match df with
  | [] => []
  | r :: t =>
    match r.product with
    | none => firstSeenProducts t
    | some p => p :: (firstSeenProducts t).filter (fun q => ¬ q = p)

/-- Value-ascending comparison on grouped pairs. -/
def valueLe (a b : String × ℚ) : Prop := a.2 ≤ b.2

instance : DecidableRel valueLe := fun a b =>
  inferInstanceAs (Decidable (a.2 ≤ b.2))

/-- Value-descending comparison on grouped pairs (`b` may come after `a`
when `b.2 ≤ a.2`). -/
def valueGe (a b : String × ℚ) : Prop := b.2 ≤ a.2

instance : DecidableRel valueGe := fun a b =>
  inferInstanceAs (Decidable (b.2 ≤ a.2))

/-- `.sort_values(ascending=False)` on the grouped series: pandas computes
an ascending argsort of the values and reverses it (`nargsort`), so the
result is the reverse of an ascending sort; the tie order within equal
values is implementation-defined (the default `kind='quicksort'` is not
stable), modelled here by the reverse of a stable ascending sort. -/
def sales_by_product (df : List Record) : List (String × ℚ) :=
  (List.insertionSort valueLe (groupbySumSales df)).reverse

/-- The KPI Summary dictionary returned by `calculate_kpis`. -/
structure KpiSummary where
  total_sales : ℚ
  avg_order_value : Option ℚ
  num_orders : Nat
  sales_by_product : List (String × ℚ)
deriving DecidableEq, Repr

/-- `calculate_kpis(df)`: performs no in-place operation on `df` (sums,
`nunique`, `groupby` and `sort_values` all build new objects), so the
caller's frame — the first component — is returned unchanged alongside
the KPI dictionary. -/
def calculate_kpis (df : List Record) : List Record × KpiSummary :=
  (df,
   { total_sales := totalSales df
     avg_order_value := avgOrderValue df
     num_orders := numOrders df
     sales_by_product := sales_by_product df })

/-- The week-ending day of the calendar week containing day `d`, for
`resample('W')` = `'W-SUN'` bins labelled by their right edge (the
Sunday on or after `d`). With the epoch 0000-03-01, Sundays are the days
`≡ 4 [MOD 7]`. -/
def weekEnd (d : Nat) : Nat := d + (11 - d % 7) % 7

/-- The consecutive week-ending labels of
`df.set_index('order_date').resample('W')`: every Sunday from the week of
the earliest date to the week of the latest (resample emits the gaps in
between as empty bins); empty for an empty frame. Rows with a NaT index
are dropped by resample. -/
def weeklyBuckets (df : List Record) : List Nat :=
  match df.filterMap (fun r => r.order_date) with
  | [] => []
  | d :: ds =>
    let lo := weekEnd (ds.foldl Nat.min d)
    let hi := weekEnd (ds.foldl Nat.max d)
    (List.range ((hi - lo) / 7 + 1)).map (fun i => lo + 7 * i)

/-- `df.set_index('order_date').resample('W')['sales'].sum()`: the weekly
sales series plotted by the first chart — for each week-ending label, the
sum of the `sales` of the rows dated in that week (NaN sales skipped,
empty bins sum to 0). -/
def weekly_sales (df : List Record) : List (Nat × ℚ) :=
  (weeklyBuckets df).map (fun w =>
    (w, ((df.filter (fun r => r.order_date.map weekEnd = some w)).filterMap
          (fun r => r.sales)).sum))

/-- `df.groupby('product')['sales'].sum().nlargest(10)`: the data of the
second chart. `nlargest` (default `keep='first'`) returns the ten largest
values descending, ties kept in order of appearance in the grouped series
(a stable descending sort followed by `take 10`). -/
def top_products (df : List Record) : List (String × ℚ) :=
  (List.insertionSort valueGe (groupbySumSales df)).take 10

/-- `os.path.join` as used here (a directory joined with a bare file
name). -/
def pathJoin (dir file : String) : String := dir ++ "/" ++ file

/-- The two chart artifacts of `generate_visuals`: each one's source
aggregate and the image path it is saved to. -/
structure Visuals where
  weekly : List (Nat × ℚ)
  top : List (String × ℚ)
  chart_paths : List String
deriving DecidableEq, Repr

/-- `generate_visuals(df, charts_dir)`. `dirs` is the set of directories
existing before the call; `os.makedirs(charts_dir, exist_ok=True)` adds
`charts_dir` to it if absent. The frame is only read (`set_index`,
`resample`, `groupby` build new objects), so the caller's frame is
returned unchanged. The artifact paths are appended in a fixed order:
the weekly time series first, then the top-product ranking. -/
def generate_visuals (dirs : List String) (df : List Record)
    (charts_dir : String) : List String × List Record × Visuals :=
  let dirs2 := if charts_dir ∈ dirs then dirs else dirs ++ [charts_dir]
  (dirs2, df,
   { weekly := weekly_sales df
     top := top_products df
     chart_paths := [pathJoin charts_dir "weekly_sales.png",
                     pathJoin charts_dir "top_products.png"] })

/-- The `summary_df` written by `export_to_excel` to the `Summary` sheet:
three label/value rows, built in this fixed order. The numeric values
live in `Option ℚ` because `avg_order_value` may be NaN. -/
def summaryRows (kpis : KpiSummary) : List (String × Option ℚ) :=
  [("Total Sales", some kpis.total_sales),
   ("Average Order Value", kpis.avg_order_value),
   ("Number of Orders", some (kpis.num_orders : ℚ))]

/-- The image-insertion loop of `export_to_excel`: each chart file is
anchored at column A of `start_row`, and `start_row` advances by 20 rows
per image. -/
def insertImagesFrom (chart_files : List String) (start_row : Nat) :
    List (String × Nat) :=
  match chart_files with
  | [] => []
  | p :: rest => (p, start_row) :: insertImagesFrom rest (start_row + 20)

/-- `export_to_excel(kpis, chart_files, ...)`: the workbook content —
the metrics rows of the `Summary` sheet, and the (image file, anchor row)
placements, starting at `len(summary_df) + 3` (row 6, below the 4-row
metrics table written at the top) and stepping by 20. -/
def export_to_excel (kpis : KpiSummary) (chart_files : List String) :
    List (String × Option ℚ) × List (String × Nat) :=
  (summaryRows kpis,
   insertImagesFrom chart_files ((summaryRows kpis).length + 3))

/-! ### Helper lemmas -/

lemma keep_of_mem_clean {df : List RawRecord} {r : Record}
    (hr : r ∈ (clean_data df).2) :
    r.order_id.isSome = true ∧ r.order_date.isSome = true ∧
      r.sales.isSome = true := by
  have h := List.of_mem_filter hr
  simpa [keepRecord, Bool.and_eq_true, and_assoc] using h

lemma insertImagesFrom_get (chart_files : List String) (s i : Nat) :
    (insertImagesFrom chart_files s).get? i =
      (chart_files.get? i).map (fun p => (p, s + 20 * i)) := by
  induction chart_files generalizing s i with
  | nil => simp [insertImagesFrom]
  | cons p rest ih =>
    cases i with
    | zero => simp [insertImagesFrom]
    | succ j =>
      simp only [insertImagesFrom, List.get?_cons_succ]
      rw [ih]
      have h20 : s + 20 + 20 * j = s + 20 * (j + 1) := by ring
      rw [h20]

lemma le_snd_of_mem_insertImagesFrom {chart_files : List String} {s : Nat}
    {y : String × Nat} (hy : y ∈ insertImagesFrom chart_files s) : s ≤ y.2 := by
  induction chart_files generalizing s with
  | nil => cases hy
  | cons p rest ih =>
    rw [insertImagesFrom] at hy
    rcases List.mem_cons.mp hy with h | h
    · subst h; exact le_refl s
    · exact le_trans (Nat.le_add_right s 20) (ih h)

lemma pairwise_insertImagesFrom (chart_files : List String) (s : Nat) :
    (insertImagesFrom chart_files s).Pairwise (fun a b => a.2 + 20 ≤ b.2) := by
  induction chart_files generalizing s with
  | nil => exact List.Pairwise.nil
  | cons p rest ih =>
    refine List.pairwise_cons.mpr ⟨fun y hy => ?_, ih (s + 20)⟩
    exact le_snd_of_mem_insertImagesFrom hy

/-! ### Claim theorems -/

/-- C9: the Order Table is read-only for the Aggregator and the
Visualizer: `calculate_kpis` and `generate_visuals` perform no in-place
operation, so the caller's cleaned table is identical before and after
either call. -/
theorem aggregator_visualizer_read_only (df : List Record)
    (dirs : List String) (charts_dir : String) :
    (calculate_kpis df).1 = df ∧
      (generate_visuals dirs df charts_dir).2.1 = df :=
  ⟨rfl, rfl⟩

/-- C10: `clean_data` mutates its argument in place for the date
coercion — afterwards the caller's raw table is exactly the original rows
with `order_date` replaced by its parsed value and every other field
unchanged — while row removal happens on a separate returned table whose
surviving rows keep their original relative order. -/
theorem clean_data_in_place_coercion (df : List RawRecord) :
    (clean_data df).1 = df.map coerceRecord
    ∧ (∀ r : RawRecord,
        (coerceRecord r).order_date = r.order_date.bind parseDate
        ∧ (coerceRecord r).order_id = r.order_id
        ∧ (coerceRecord r).product = r.product
        ∧ (coerceRecord r).sales = r.sales)
    ∧ (clean_data df).2 = ((clean_data df).1).filter keepRecord
    ∧ List.Sublist ((clean_data df).2) ((clean_data df).1) :=
  ⟨rfl, fun _ => ⟨rfl, rfl, rfl, rfl⟩, rfl, List.filter_sublist _⟩

/-- C8: `generate_visuals` creates the caller-supplied charts directory
if absent (and deletes none), and returns exactly the two artifact paths
inside it, the weekly time-series chart first and the top-product ranking
chart second. -/
theorem visuals_directory_and_paths (dirs : List String)
    (df : List Record) (charts_dir : String) :
    charts_dir ∈ (generate_visuals dirs df charts_dir).1
    ∧ List.Sublist dirs ((generate_visuals dirs df charts_dir).1)
    ∧ (generate_visuals dirs df charts_dir).2.2.chart_paths =
        [pathJoin charts_dir "weekly_sales.png",
         pathJoin charts_dir "top_products.png"] := by
  by_cases h : charts_dir ∈ dirs
  · exact ⟨by simp [generate_visuals, h], by simp [generate_visuals, h], rfl⟩
  · refine ⟨?_, ?_, rfl⟩
    · simp [generate_visuals, h]
    · simp only [generate_visuals, if_neg h]
      exact List.sublist_append_left dirs [charts_dir]

/-- C4: on an empty cleaned table `calculate_kpis` returns a defined KPI
Summary with `total_sales = 0` (the undefined mean is the NaN value
`none`), and `generate_visuals` still yields both chart artifacts, each
with an empty data series, rather than an error. -/
theorem empty_table_defined_results :
    (calculate_kpis ([] : List Record)).2 =
      { total_sales := 0, avg_order_value := none, num_orders := 0,
        sales_by_product := [] }
    ∧ (∀ (dirs : List String) (charts_dir : String),
        (generate_visuals dirs [] charts_dir).2.2 =
          { weekly := [], top := [],
            chart_paths := [pathJoin charts_dir "weekly_sales.png",
                            pathJoin charts_dir "top_products.png"] }) :=
  ⟨rfl, fun _ _ => rfl⟩

/-- C7: the metrics sheet written by `export_to_excel` has exactly the
three label/value rows Total Sales, Average Order Value, Number of
Orders in that order, and the chart images are anchored at row 6 (below
the four rows the metrics table occupies) with each further image 20 rows
lower, so no two anchors are closer than 20 rows. -/
theorem export_metrics_and_image_layout (kpis : KpiSummary)
    (chart_files : List String) :
    (export_to_excel kpis chart_files).1 =
      [("Total Sales", some kpis.total_sales),
       ("Average Order Value", kpis.avg_order_value),
       ("Number of Orders", some (kpis.num_orders : ℚ))]
    ∧ (∀ i : Nat,
        ((export_to_excel kpis chart_files).2).get? i =
          (chart_files.get? i).map (fun p => (p, 6 + 20 * i)))
    ∧ ((export_to_excel kpis chart_files).2).Pairwise
        (fun a b => a.2 + 20 ≤ b.2) :=
  ⟨rfl, fun i => insertImagesFrom_get chart_files 6 i,
   pairwise_insertImagesFrom chart_files 6⟩

/-- A small raw input table: three well-formed rows, one row missing its
`order_id`, and one row whose `order_date` does not parse. -/
def rawExample : List RawRecord :=
  [{ order_id := some "O1", order_date := some "2024-01-01",
     product := some "Widget", sales := some 100 },
   { order_id := some "O2", order_date := some "2024-01-02",
     product := some "Widget", sales := some 50 },
   { order_id := none, order_date := some "2024-01-05",
     product := some "Broken", sales := some 10 },
   { order_id := some "O4", order_date := some "not-a-date",
     product := some "Gadget", sales := some 75 },
   { order_id := some "O3", order_date := some "2024-01-08",
     product := some "Gadget", sales := some 200 }]

/-- C5: every record surviving `clean_data` has non-missing `order_id`,
`order_date` and `sales`; a row whose `order_date` fails to parse is
coerced to a missing date and is therefore absent from the cleaned table;
bad rows are dropped, not raised as errors (`clean_data` is total). -/
theorem cleaned_records_complete (df : List RawRecord) (r : Record)
    (hr : r ∈ (clean_data df).2) (s : RawRecord)
    (hs : s.order_date.bind parseDate = none) :
    (r.order_id.isSome = true ∧ r.order_date.isSome = true ∧
      r.sales.isSome = true)
    ∧ coerceRecord s ∉ (clean_data df).2 := by
  refine ⟨keep_of_mem_clean hr, fun hmem => ?_⟩
  have h := (keep_of_mem_clean hmem).2.1
  rw [show (coerceRecord s).order_date = s.order_date.bind parseDate from rfl,
      hs] at h
  simp at h

/-- Witness for C5 at the concrete table `rawExample`: its first cleaned
record has all three required fields, and the coercion of its
unparseable-date row is not in the cleaned table. -/
theorem cleaned_records_complete_witness :
    ({ order_id := some "O1", order_date := some 739191,
       product := some "Widget", sales := some 100 } : Record) ∈
        (clean_data rawExample).2
    ∧ ({ order_id := some "O4", order_date := some "not-a-date",
         product := some "Gadget", sales := some 75 } :
           RawRecord).order_date.bind parseDate = none
    ∧ ((({ order_id := some "O1", order_date := some 739191,
           product := some "Widget", sales := some 100 } :
             Record).order_id.isSome = true
        ∧ ({ order_id := some "O1", order_date := some 739191,
             product := some "Widget", sales := some 100 } :
               Record).order_date.isSome = true
        ∧ ({ order_id := some "O1", order_date := some 739191,
             product := some "Widget", sales := some 100 } :
               Record).sales.isSome = true)
       ∧ coerceRecord { order_id := some "O4",
                        order_date := some "not-a-date",
                        product := some "Gadget", sales := some 75 } ∉
           (clean_data rawExample).2) :=
  ⟨by decide, by decide,
   cleaned_records_complete rawExample _ (by decide) _ (by decide)⟩

/-- C6: the data outputs of the pipeline are deterministic — on equal
input tables, cleaning, the KPI Summary and the chart-data aggregates of
`generate_visuals` coincide run for run. -/
theorem pipeline_deterministic (df1 df2 : List RawRecord)
    (dirs : List String) (charts_dir : String) (h : df1 = df2) :
    clean_data df1 = clean_data df2
    ∧ calculate_kpis (clean_data df1).2 = calculate_kpis (clean_data df2).2
    ∧ generate_visuals dirs (clean_data df1).2 charts_dir
        = generate_visuals dirs (clean_data df2).2 charts_dir := by
  subst h
  exact ⟨rfl, rfl, rfl⟩

/-- Witness for C6 at the concrete table `rawExample`. -/
theorem pipeline_deterministic_witness :
    clean_data rawExample = clean_data rawExample
    ∧ calculate_kpis (clean_data rawExample).2 =
        calculate_kpis (clean_data rawExample).2
    ∧ generate_visuals ["output"] (clean_data rawExample).2 "output/charts"
        = generate_visuals ["output"] (clean_data rawExample).2
            "output/charts" :=
  pipeline_deterministic rawExample rawExample ["output"] "output/charts" rfl

lemma length_filterMap_eq {α β : Type} (f : α → Option β) (l : List α)
    (h : ∀ a ∈ l, (f a).isSome = true) : (l.filterMap f).length = l.length := by
  induction l with
  | nil => rfl
  | cons a t ih =>
    rcases Option.isSome_iff_exists.mp (h a (List.mem_cons_self a t)) with
      ⟨b, hb⟩
    rw [List.filterMap_cons, hb]
    simp [ih (fun x hx => h x (List.mem_cons_of_mem a hx))]

/-- A raw table in which both (well-formed) rows carry the same
`order_id`. -/
def rawRepeatOrder : List RawRecord :=
  [{ order_id := some "O1", order_date := some "2024-01-01",
     product := some "Widget", sales := some 100 },
   { order_id := some "O1", order_date := some "2024-01-02",
     product := some "Widget", sales := some 50 }]

/-- Counterexample to C1: on a cleaned table whose two rows share one
`order_id`, `num_orders = 1 > 0` but `avg_order_value` is the mean over
rows (75), not `total_sales / num_orders` (150). -/
theorem avg_not_sales_per_distinct_order :
    (calculate_kpis (clean_data rawRepeatOrder).2).2.num_orders = 1
    ∧ (calculate_kpis (clean_data rawRepeatOrder).2).2.total_sales = 150
    ∧ (calculate_kpis (clean_data rawRepeatOrder).2).2.avg_order_value =
        some 75
    ∧ some ((calculate_kpis (clean_data rawRepeatOrder).2).2.total_sales /
          ((calculate_kpis (clean_data rawRepeatOrder).2).2.num_orders : ℚ))
        ≠ (calculate_kpis (clean_data rawRepeatOrder).2).2.avg_order_value :=
  of_decide_eq_true (by with_unfolding_all rfl)

/-- C1 as amended: on a non-empty cleaned table, `avg_order_value` is
`total_sales` divided by the number of cleaned rows; this coincides with
`total_sales / num_orders` exactly when the cleaned `order_id` values are
pairwise distinct. -/
theorem avg_is_mean_over_rows (df : List RawRecord)
    (h : (clean_data df).2 ≠ []) :
    (calculate_kpis (clean_data df).2).2.avg_order_value =
      some ((calculate_kpis (clean_data df).2).2.total_sales /
            (((clean_data df).2).length : ℚ))
    ∧ ((((clean_data df).2).filterMap (fun r => r.order_id)).Nodup →
        (calculate_kpis (clean_data df).2).2.avg_order_value =
          some ((calculate_kpis (clean_data df).2).2.total_sales /
                ((calculate_kpis (clean_data df).2).2.num_orders : ℚ))) := by
  have hsales : ∀ r ∈ (clean_data df).2, (Record.sales r).isSome = true :=
    fun r hr => (keep_of_mem_clean hr).2.2
  have hcount : salesCount ((clean_data df).2) = ((clean_data df).2).length :=
    length_filterMap_eq _ _ hsales
  have hne : ((clean_data df).2).length ≠ 0 := by
    simpa [List.length_eq_zero] using h
  constructor
  · show avgOrderValue ((clean_data df).2) = _
    rw [avgOrderValue, hcount, if_neg hne]
    rfl
  · intro hnd
    have hids : ∀ r ∈ (clean_data df).2, (Record.order_id r).isSome = true :=
      fun r hr => (keep_of_mem_clean hr).1
    have hnum : (calculate_kpis (clean_data df).2).2.num_orders =
        ((clean_data df).2).length := by
      show numOrders ((clean_data df).2) = _
      rw [numOrders, List.dedup_eq_self.mpr hnd]
      exact length_filterMap_eq _ _ hids
    rw [hnum]
    show avgOrderValue ((clean_data df).2) = _
    rw [avgOrderValue, hcount, if_neg hne]
    rfl

/-- Witness for the amended C1 at the concrete table `rawExample` (three
cleaned rows, distinct order ids). -/
theorem avg_is_mean_over_rows_witness :
    (clean_data rawExample).2 ≠ []
    ∧ ((calculate_kpis (clean_data rawExample).2).2.avg_order_value =
        some ((calculate_kpis (clean_data rawExample).2).2.total_sales /
              (((clean_data rawExample).2).length : ℚ))
      ∧ ((((clean_data rawExample).2).filterMap
            (fun r => r.order_id)).Nodup →
          (calculate_kpis (clean_data rawExample).2).2.avg_order_value =
            some ((calculate_kpis (clean_data rawExample).2).2.total_sales /
                  ((calculate_kpis
                      (clean_data rawExample).2).2.num_orders : ℚ)))) :=
  ⟨by decide, avg_is_mean_over_rows rawExample (by decide)⟩

lemma sum_map_zero_q (ks : List String) :
    (ks.map (fun _ => (0:ℚ))).sum = 0 := by
  induction ks with
  | nil => rfl
  | cons a t ih => simp [ih]

lemma sum_map_add_q (f g : String → ℚ) (ks : List String) :
    (ks.map (fun p => f p + g p)).sum = (ks.map f).sum + (ks.map g).sum := by
  induction ks with
  | nil => simp
  | cons a t ih =>
    simp only [List.map_cons, List.sum_cons, ih]
    ring

lemma sum_indicator_zero {q : String} {v : ℚ} {ks : List String}
    (hq : q ∉ ks) : (ks.map (fun p => if q = p then v else 0)).sum = 0 := by
  induction ks with
  | nil => rfl
  | cons a t ih =>
    have hqa : ¬ q = a := fun e => hq (e ▸ List.mem_cons_self a t)
    have hqt : q ∉ t := fun e => hq (List.mem_cons_of_mem a e)
    simp [hqa, ih hqt]

lemma sum_indicator {ks : List String} (hnd : ks.Nodup) {q : String}
    (hq : q ∈ ks) (v : ℚ) :
    (ks.map (fun p => if q = p then v else 0)).sum = v := by
  induction ks with
  | nil => cases hq
  | cons a t ih =>
    rcases List.mem_cons.mp hq with he | ht
    · subst he
      have hqt : q ∉ t := (List.nodup_cons.mp hnd).1
      simp [sum_indicator_zero hqt]
    · have hqa : ¬ q = a := by
        intro e
        subst e
        exact (List.nodup_cons.mp hnd).1 ht
      simp [hqa, ih (List.nodup_cons.mp hnd).2 ht]

lemma groupSales_cons (r : Record) (t : List Record) (p : String) :
    groupSales (r :: t) p =
      (if r.product = some p then (Record.sales r).getD 0 else 0) +
        groupSales t p := by
  by_cases h : r.product = some p
  · cases hs : r.sales with
    | none => simp [groupSales, List.filter_cons, h, hs, List.filterMap_cons]
    | some v => simp [groupSales, List.filter_cons, h, hs, List.filterMap_cons]
  · simp [groupSales, List.filter_cons, h]

lemma totalSales_present_cons (r : Record) (t : List Record) :
    totalSales ((r :: t).filter (fun x => x.product.isSome)) =
      (if (Record.product r).isSome = true then (Record.sales r).getD 0
       else 0) +
        totalSales (t.filter (fun x => x.product.isSome)) := by
  by_cases h : (Record.product r).isSome = true
  · cases hs : r.sales with
    | none => simp [totalSales, List.filter_cons, h, hs, List.filterMap_cons]
    | some v => simp [totalSales, List.filter_cons, h, hs, List.filterMap_cons]
  · simp [totalSales, List.filter_cons, h]

lemma sum_groupSales_partition (df : List Record) (ks : List String)
    (hnd : ks.Nodup)
    (hcov : ∀ r ∈ df, ∀ p, Record.product r = some p → p ∈ ks) :
    (ks.map (groupSales df)).sum =
      totalSales (df.filter (fun x => x.product.isSome)) := by
  induction df with
  | nil =>
    have hz : groupSales ([] : List Record) = fun _ => (0:ℚ) :=
      funext fun _ => rfl
    rw [hz, sum_map_zero_q]
    rfl
  | cons r t ih =>
    have hcovt : ∀ x ∈ t, ∀ p, Record.product x = some p → p ∈ ks :=
      fun x hx => hcov x (List.mem_cons_of_mem r hx)
    have hfun : groupSales (r :: t) =
        fun p => (if r.product = some p then (Record.sales r).getD 0 else 0) +
          groupSales t p :=
      funext fun p => groupSales_cons r t p
    rw [hfun, sum_map_add_q, totalSales_present_cons, ih hcovt]
    cases hp : r.product with
    | none =>
      have hz : (fun p => if (none : Option String) = some p then
          (Record.sales r).getD 0 else 0) = fun _ => (0:ℚ) :=
        funext fun p => by simp
      rw [hz, sum_map_zero_q]
      simp
    | some q =>
      have hq : q ∈ ks := hcov r (List.mem_cons_self r t) q hp
      have hind : (fun p => if some q = some p then
          (Record.sales r).getD 0 else 0) =
          fun p => if q = p then (Record.sales r).getD 0 else 0 :=
        funext fun p => by simp
      rw [hind, sum_indicator hnd hq]
      simp

lemma sales_by_product_sum (df : List Record) :
    ((sales_by_product df).map Prod.snd).sum =
      totalSales (df.filter (fun x => x.product.isSome)) := by
  rw [sales_by_product, List.map_reverse, List.sum_reverse]
  rw [((List.perm_insertionSort valueLe
        (groupbySumSales df)).map Prod.snd).sum_eq]
  rw [groupbySumSales, List.map_map]
  have h2 : (Prod.snd ∘ fun p => (p, groupSales df p)) = groupSales df := rfl
  rw [h2, productKeys]
  rw [((List.perm_insertionSort strLe
        ((df.filterMap (fun r => r.product)).dedup)).map (groupSales df)).sum_eq]
  exact sum_groupSales_partition df _ (List.nodup_dedup _)
    (fun r hr p hp =>
      List.mem_dedup.mpr (List.mem_filterMap.mpr ⟨r, hr, by rw [hp]⟩))

/-- A raw table one of whose (otherwise well-formed) rows has a missing
`product`. -/
def rawMissingProduct : List RawRecord :=
  [{ order_id := some "O1", order_date := some "2024-01-01",
     product := none, sales := some 50 },
   { order_id := some "O2", order_date := some "2024-01-02",
     product := some "A", sales := some 100 }]

/-- Counterexample to C2: a cleaned row with a missing `product` is kept
by the Cleaner but excluded from `sales_by_product` (pandas `groupby`
drops NaN keys by default), so the breakdown sums to 100 while
`total_sales` is 150. -/
theorem missing_product_dropped_from_breakdown :
    (calculate_kpis (clean_data rawMissingProduct).2).2.total_sales = 150
    ∧ (calculate_kpis (clean_data rawMissingProduct).2).2.sales_by_product =
        [("A", 100)]
    ∧ (((calculate_kpis
          (clean_data rawMissingProduct).2).2.sales_by_product).map
            Prod.snd).sum ≠
        (calculate_kpis (clean_data rawMissingProduct).2).2.total_sales
    ∧ (∃ r ∈ (clean_data rawMissingProduct).2, Record.product r = none) :=
  of_decide_eq_true (by with_unfolding_all rfl)

/-- C2 as amended: the values of `sales_by_product` sum to the total
sales of the cleaned records whose `product` is present — rows with a
missing `product` are excluded from the breakdown rather than grouped —
and hence to `total_sales` whenever every cleaned record has a
product. -/
theorem sales_by_product_sums_present (df : List RawRecord) :
    (((calculate_kpis (clean_data df).2).2.sales_by_product).map
        Prod.snd).sum =
      totalSales (((clean_data df).2).filter (fun r => r.product.isSome))
    ∧ ((∀ r ∈ (clean_data df).2, (Record.product r).isSome = true) →
        (((calculate_kpis (clean_data df).2).2.sales_by_product).map
            Prod.snd).sum =
          (calculate_kpis (clean_data df).2).2.total_sales) := by
  constructor
  · exact sales_by_product_sum _
  · intro hall
    have hfilter : ((clean_data df).2).filter (fun r => r.product.isSome) =
        (clean_data df).2 :=
      List.filter_eq_self.mpr (fun r hr => hall r hr)
    have hgen := sales_by_product_sum ((clean_data df).2)
    rw [hfilter] at hgen
    exact hgen

/-- Witness for the amended C2 at the concrete table `rawExample`. -/
theorem sales_by_product_sums_present_witness :
    (((calculate_kpis (clean_data rawExample).2).2.sales_by_product).map
        Prod.snd).sum =
      totalSales (((clean_data rawExample).2).filter
        (fun r => r.product.isSome))
    ∧ ((∀ r ∈ (clean_data rawExample).2,
          (Record.product r).isSome = true) →
        (((calculate_kpis (clean_data rawExample).2).2.sales_by_product).map
            Prod.snd).sum =
          (calculate_kpis (clean_data rawExample).2).2.total_sales) :=
  sales_by_product_sums_present rawExample

lemma strLtB_irrefl : ∀ l : List Char, strLtB l l = false
  | [] => rfl
  | a :: as => by
    rw [strLtB, if_neg (lt_irrefl a), if_neg (lt_irrefl a)]
    exact strLtB_irrefl as

lemma strLtB_trans : ∀ {a b c : List Char}, strLtB a b = true →
    strLtB b c = true → strLtB a c = true
  | [], [], _, h1, _ => by cases h1
  | [], _ :: _, [], _, h2 => by cases h2
  | [], _ :: _, _ :: _, _, _ => rfl
  | _ :: _, [], _, h1, _ => by cases h1
  | _ :: _, _ :: _, [], _, h2 => by cases h2
  | x :: xs, y :: ys, z :: zs, h1, h2 => by
    rw [strLtB] at h1 h2 ⊢
    by_cases hxy : x < y
    · rw [if_pos hxy] at h1
      by_cases hyz : y < z
      · rw [if_pos (lt_trans hxy hyz)]
      · rw [if_neg hyz] at h2
        by_cases hzy : z < y
        · rw [if_pos hzy] at h2
          cases h2
        · have hyz2 : y = z := le_antisymm (not_lt.mp hzy) (not_lt.mp hyz)
          rw [if_pos (hyz2 ▸ hxy)]
    · rw [if_neg hxy] at h1
      by_cases hyx : y < x
      · rw [if_pos hyx] at h1
        cases h1
      · rw [if_neg hyx] at h1
        have hxy2 : x = y := le_antisymm (not_lt.mp hyx) (not_lt.mp hxy)
        by_cases hyz : y < z
        · rw [if_pos (hxy2 ▸ hyz)]
        · rw [if_neg hyz] at h2
          by_cases hzy : z < y
          · rw [if_pos hzy] at h2
            cases h2
          · rw [if_neg hzy] at h2
            have hyz2 : y = z := le_antisymm (not_lt.mp hzy) (not_lt.mp hyz)
            have hxz : x = z := hxy2.trans hyz2
            rw [if_neg (hxz ▸ lt_irrefl x), if_neg (hxz ▸ lt_irrefl x)]
            exact strLtB_trans h1 h2

lemma strLtB_trichotomy : ∀ a b : List Char,
    strLtB a b = true ∨ a = b ∨ strLtB b a = true
  | [], [] => Or.inr (Or.inl rfl)
  | [], _ :: _ => Or.inl rfl
  | _ :: _, [] => Or.inr (Or.inr rfl)
  | x :: xs, y :: ys => by
    rcases lt_trichotomy x y with hxy | hxy | hxy
    · exact Or.inl (by rw [strLtB, if_pos hxy])
    · subst hxy
      rcases strLtB_trichotomy xs ys with h | h | h
      · refine Or.inl ?_
        rw [strLtB, if_neg (lt_irrefl x), if_neg (lt_irrefl x)]
        exact h
      · exact Or.inr (Or.inl (by rw [h]))
      · refine Or.inr (Or.inr ?_)
        rw [strLtB, if_neg (lt_irrefl x), if_neg (lt_irrefl x)]
        exact h
    · exact Or.inr (Or.inr (by rw [strLtB, if_pos hxy]))

lemma strLtB_asymm {a b : List Char} (h : strLtB a b = true) :
    strLtB b a = false := by
  cases hba : strLtB b a with
  | false => rfl
  | true =>
    have := strLtB_trans h hba
    rw [strLtB_irrefl] at this
    cases this

instance : IsTotal String strLe :=
  ⟨fun a b => by
    rcases strLtB_trichotomy a.data b.data with h | h | h
    · exact Or.inl (strLtB_asymm h)
    · exact Or.inl (by rw [strLe, h, strLtB_irrefl])
    · exact Or.inr (strLtB_asymm h)⟩

instance : IsTrans String strLe :=
  ⟨fun a b c hab hbc => by
    rw [strLe] at hab hbc ⊢
    cases hca : strLtB c.data a.data with
    | false => rfl
    | true =>
      exfalso
      rcases strLtB_trichotomy b.data a.data with h | h | h
      · rw [h] at hab
        cases hab
      · rw [← h, hbc] at hca
        cases hca
      · rw [strLtB_trans hca h] at hbc
        cases hbc⟩

instance : IsTotal (String × ℚ) valueLe :=
  ⟨fun a b => le_total a.2 b.2⟩

instance : IsTrans (String × ℚ) valueLe :=
  ⟨fun _ _ _ h1 h2 => le_trans h1 h2⟩

instance : IsTotal (String × ℚ) valueGe :=
  ⟨fun a b => le_total b.2 a.2⟩

instance : IsTrans (String × ℚ) valueGe :=
  ⟨fun _ _ _ h1 h2 => le_trans h2 h1⟩

/-- The order in which `nlargest` actually emits tied entries: value
strictly descending, or equal values with keys in the (lexicographic)
order of the grouped series. -/
def lexPair (a b : String × ℚ) : Prop :=
  b.2 < a.2 ∨ (b.2 = a.2 ∧ strLt a.1 b.1)

lemma pairwise_strLt_productKeys (df : List Record) :
    (productKeys df).Pairwise strLt := by
  have hsorted : (productKeys df).Pairwise strLe :=
    List.sorted_insertionSort strLe _
  have hnd : (productKeys df).Nodup := by
    rw [productKeys]
    exact (List.perm_insertionSort strLe
      ((df.filterMap (fun r => r.product)).dedup)).nodup_iff.mpr
      (List.nodup_dedup _)
  refine (hsorted.and hnd).imp ?_
  rintro a b ⟨hle, hne⟩
  rcases strLtB_trichotomy a.data b.data with h | h | h
  · exact h
  · exact absurd (String.ext h) hne
  · rw [strLe, h] at hle
    cases hle

lemma pairwise_keyLt_groupbySum (df : List Record) :
    (groupbySumSales df).Pairwise (fun x y => strLt x.1 y.1) := by
  rw [groupbySumSales]
  exact List.pairwise_map.mpr (pairwise_strLt_productKeys df)

lemma pairwise_lex_orderedInsert (a : String × ℚ) (S : List (String × ℚ)) :
    S.Pairwise valueGe → S.Pairwise lexPair →
      (∀ y ∈ S, strLt a.1 y.1) →
      (List.orderedInsert valueGe a S).Pairwise lexPair := by
  induction S with
  | nil =>
    intro _ _ _
    simp [List.orderedInsert]
  | cons b S2 ih =>
    intro hsorted hlex ha
    rw [List.orderedInsert]
    by_cases h : valueGe a b
    · rw [if_pos h]
      refine List.pairwise_cons.mpr ⟨fun z hz => ?_, hlex⟩
      have hzle : z.2 ≤ a.2 := by
        rcases List.mem_cons.mp hz with he | hm
        · exact he ▸ h
        · exact le_trans ((List.pairwise_cons.mp hsorted).1 z hm) h
      rcases lt_or_eq_of_le hzle with hlt | heq
      · exact Or.inl hlt
      · exact Or.inr ⟨heq, ha z hz⟩
    · rw [if_neg h]
      have hab : a.2 < b.2 := not_le.mp h
      refine List.pairwise_cons.mpr ⟨fun z hz => ?_, ?_⟩
      · rcases (List.mem_orderedInsert valueGe).mp hz with he | hm
        · exact he ▸ Or.inl hab
        · exact (List.pairwise_cons.mp hlex).1 z hm
      · exact ih (List.pairwise_cons.mp hsorted).2
          (List.pairwise_cons.mp hlex).2
          (fun y hy => ha y (List.mem_cons_of_mem b hy))

lemma pairwise_lex_insertionSort (l : List (String × ℚ))
    (hk : l.Pairwise (fun x y => strLt x.1 y.1)) :
    (List.insertionSort valueGe l).Pairwise lexPair := by
  induction l with
  | nil => exact List.Pairwise.nil
  | cons a l ih =>
    rw [List.insertionSort]
    have ha : ∀ y ∈ List.insertionSort valueGe l, strLt a.1 y.1 := fun y hy =>
      (List.pairwise_cons.mp hk).1 y
        ((List.perm_insertionSort valueGe l).mem_iff.mp hy)
    exact pairwise_lex_orderedInsert a _
      (List.sorted_insertionSort valueGe l)
      (ih (List.pairwise_cons.mp hk).2) ha

/-- A raw table with two products whose summed sales tie, the
lexicographically later product (`"B"`) encountered first. -/
def rawTieOrder : List RawRecord :=
  [{ order_id := some "O1", order_date := some "2024-01-01",
     product := some "B", sales := some 100 },
   { order_id := some "O2", order_date := some "2024-01-02",
     product := some "A", sales := some 100 }]

/-- Counterexample to C3: on a tie (both products sum to 100) the
top-product selection of `generate_visuals` lists `"A"` before `"B"` —
the order of the lexicographically sorted grouped series — not the
first-encountered order `["B", "A"]`. -/
theorem top_products_tie_not_first_encountered :
    groupSales (clean_data rawTieOrder).2 "A" =
      groupSales (clean_data rawTieOrder).2 "B"
    ∧ firstSeenProducts (clean_data rawTieOrder).2 = ["B", "A"]
    ∧ (top_products (clean_data rawTieOrder).2).map Prod.fst = ["A", "B"]
    ∧ (top_products (clean_data rawTieOrder).2).map Prod.fst ≠
        firstSeenProducts (clean_data rawTieOrder).2 :=
  of_decide_eq_true (by with_unfolding_all rfl)

/-- C3 as amended: `sales_by_product` is ordered non-increasing by summed
sales, but its tie order is not the first-encountered insertion order
(pandas sorts group keys lexicographically and `sort_values` is not a
stable sort); the top-10 selection of `generate_visuals` orders every
tie lexicographically ascending by product name (the order of appearance
in the grouped series), again not by first encounter. -/
theorem ranking_descending_ties_lexicographic (df : List RawRecord) :
    ((calculate_kpis (clean_data df).2).2.sales_by_product).Pairwise
      (fun a b => b.2 ≤ a.2)
    ∧ (top_products (clean_data df).2).Pairwise lexPair := by
  constructor
  · show (sales_by_product ((clean_data df).2)).Pairwise _
    rw [sales_by_product]
    refine List.pairwise_reverse.mpr ?_
    exact List.sorted_insertionSort valueLe _
  · rw [top_products]
    exact (pairwise_lex_insertionSort _
      (pairwise_keyLt_groupbySum ((clean_data df).2))).sublist
      (List.take_sublist 10 _)

end Report
